import Mathlib

/-!
Verification of the FetchCve fetch pipeline against its source.

The development shallowly embeds the Python sources:
  * `fetcher.py`    — `Fetcher.make_request` (request/retry/cooldown state
    machine), `Fetcher.fetch`, `Fetcher._fetch`, `Fetcher._finalize_fetch`;
  * `cve_fetcher.py` — `CveFetcher._create_page_params_queue` (pagination
    discovery) and `CveFetcher.fetch_days_back` (date-range chunking);
  * `save_file_parser.py` — `SaveFileParser.run` (batching sink).

Machine integers are modelled as `Nat`/`Int` (Python integers are unbounded,
so no wrap-around modelling is needed).  Blocking queue reads are modelled by
explicit lists of the values that ever arrive; a `get` on an exhausted list
models a thread blocking forever.  Each definition keeps the source's name
where Lean allows it.
-/

/-- Opaque result entry (one CVE record); its content is never interpreted
by the core, so it is modelled as a bare natural number. -/
abbrev Entry := Nat

/-- Class constants of `Fetcher` / `CveFetcher` (fetcher.py lines 75-80,
cve_fetcher.py lines 22-38). -/
def MAX_WORKERS : Nat := 5
def COOLDOWN_TIME : Nat := 30
def RETRY_TIMER : Nat := 15
def MAX_RETRIES : Nat := 10
def MAX_CONSECUTIVE_DAYS : Nat := 120

/-! ## `Fetcher.make_request` (fetcher.py lines 128-170)

The method loops forever over the responses the server returns for one
logical request: status 403 sleeps one cooldown and retries, status 503
retries up to `MAX_RETRIES` attempts with a fixed retry sleep and then raises
`UnavailableService`, any other non-200 status raises
`UnsupportedStatusCode`, and 200 returns the response.  The embedding takes
the list of responses the server would successively return for this request
and walks it with the `attempts` counter (initialised to 1, exactly as in the
source); the trace records the outcome together with how many requests were
issued and how many sleeps of each kind happened. -/

/-- A server response: its HTTP status code and its body text. -/
structure Response where
  statusCode : Nat
  body : String
deriving DecidableEq, Repr

/-- Outcome of `make_request`: a returned response, one of the two
`QueryFailed` exceptions (each carrying the offending response), or the
model artifact of running out of scripted responses (the real loop would
issue a further request). -/
inductive ReqOutcome where
  | success (r : Response)
  | unavailableService (r : Response)
  | unsupportedStatusCode (r : Response)
  | exhausted
deriving DecidableEq, Repr

/-- Observable trace of one `make_request` call. -/
structure ReqTrace where
  outcome : ReqOutcome
  requestsMade : Nat
  cooldownSleeps : Nat
  retrySleeps : Nat
deriving DecidableEq, Repr

/-- The `while True` loop of `make_request`, fetcher.py lines 142-170.
`attempts` is the retry counter of the source (starting at 1); the list
argument holds the responses the server returns to the successive
`requests.get` calls. -/
def makeRequestLoop (maxRetries : Nat) : List Response → Nat → ReqTrace
  | [], _ =>
    { outcome := .exhausted, requestsMade := 0, cooldownSleeps := 0,
      retrySleeps := 0 }
  | r :: rest, attempts =>
    if r.statusCode = 403 then
      -- reached rate limit: sleep COOLDOWN_TIME and retry (lines 145-149)
      let t := makeRequestLoop maxRetries rest attempts
      { t with requestsMade := t.requestsMade + 1,
               cooldownSleeps := t.cooldownSleeps + 1 }
    else if r.statusCode = 503 then
      -- temporarily unavailable (lines 150-160)
      if attempts = maxRetries then
        { outcome := .unavailableService r, requestsMade := 1,
          cooldownSleeps := 0, retrySleeps := 0 }
      else
        let t := makeRequestLoop maxRetries rest (attempts + 1)
        { t with requestsMade := t.requestsMade + 1,
                 retrySleeps := t.retrySleeps + 1 }
    else if r.statusCode ≠ 200 then
      -- unsupported status code (lines 161-169)
      { outcome := .unsupportedStatusCode r, requestsMade := 1,
        cooldownSleeps := 0, retrySleeps := 0 }
    else
      { outcome := .success r, requestsMade := 1, cooldownSleeps := 0,
        retrySleeps := 0 }

/-- `Fetcher.make_request`: the loop entered with `attempts = 1`
(fetcher.py line 141). -/
def make_request (maxRetries : Nat) (responses : List Response) : ReqTrace :=
  makeRequestLoop maxRetries responses 1

/-- Consuming a run of 503 responses below the retry ceiling only bumps the
attempt counter and the retry-sleep count. -/
theorem makeRequestLoop_503_run (maxRetries : Nat) :
    ∀ (l rs : List Response) (a : Nat),
      (∀ r ∈ l, r.statusCode = 503) → a + l.length ≤ maxRetries →
      makeRequestLoop maxRetries (l ++ rs) a =
        { outcome := (makeRequestLoop maxRetries rs (a + l.length)).outcome,
          requestsMade :=
            (makeRequestLoop maxRetries rs (a + l.length)).requestsMade
              + l.length,
          cooldownSleeps :=
            (makeRequestLoop maxRetries rs (a + l.length)).cooldownSleeps,
          retrySleeps :=
            (makeRequestLoop maxRetries rs (a + l.length)).retrySleeps
              + l.length } := by
  intro l
  induction l with
  | nil => intro rs a _ _; simp
  | cons r l ih =>
    intro rs a hall hlen
    have hr : r.statusCode = 503 := hall r (by simp)
    have hne : ¬ (a = maxRetries) := by simp at hlen; omega
    have hrec := ih rs (a + 1) (fun x hx => hall x (by simp [hx]))
      (by simp at hlen ⊢; omega)
    have ha : a + 1 + l.length = a + (l.length + 1) := by omega
    rw [ha] at hrec
    simp only [List.cons_append, List.length_cons]
    simp [makeRequestLoop, hr, hne, hrec]
    omega

/-- Prepending a block of 403 responses leaves the attempt counter and the
eventual outcome untouched; it only adds one request and one cooldown sleep
per 403. -/
theorem makeRequestLoop_403_replicate (maxRetries a : Nat) (r : Response)
    (rs : List Response) (h403 : r.statusCode = 403) :
    ∀ n, makeRequestLoop maxRetries (List.replicate n r ++ rs) a =
      { outcome := (makeRequestLoop maxRetries rs a).outcome,
        requestsMade := (makeRequestLoop maxRetries rs a).requestsMade + n,
        cooldownSleeps :=
          (makeRequestLoop maxRetries rs a).cooldownSleeps + n,
        retrySleeps := (makeRequestLoop maxRetries rs a).retrySleeps } := by
  intro n
  induction n with
  | zero => simp
  | succ n ih =>
    rw [List.replicate_succ, List.cons_append]
    simp [makeRequestLoop, h403, ih, ReqTrace.mk.injEq]
    omega

/-- C2: a request answered 503 on every attempt consumes exactly
`MaxRetries` responses, sleeping the fixed retry interval before each of the
`MaxRetries - 1` re-requests, and then raises `UnavailableService` carrying
the last response; if the first `MaxRetries - 1` responses are 503 and the
next is 200, the successful response is returned
(fetcher.py lines 150-160, 170). -/
theorem make_request_503_retry_spec (maxRetries : Nat)
    (l rest rest2 : List Response) (rlast rok : Response)
    (hmr : 1 ≤ maxRetries)
    (hl : ∀ r ∈ l, r.statusCode = 503) (hlen : l.length = maxRetries - 1)
    (hlast : rlast.statusCode = 503) (hok : rok.statusCode = 200) :
    make_request maxRetries (l ++ rlast :: rest) =
      { outcome := .unavailableService rlast, requestsMade := maxRetries,
        cooldownSleeps := 0, retrySleeps := maxRetries - 1 } ∧
    make_request maxRetries (l ++ rok :: rest2) =
      { outcome := .success rok, requestsMade := maxRetries,
        cooldownSleeps := 0, retrySleeps := maxRetries - 1 } := by
  have h1 := makeRequestLoop_503_run maxRetries l (rlast :: rest) 1 hl
    (by omega)
  have h2 := makeRequestLoop_503_run maxRetries l (rok :: rest2) 1 hl
    (by omega)
  have hidx : 1 + l.length = maxRetries := by omega
  rw [hidx] at h1 h2
  have hstep1 : makeRequestLoop maxRetries (rlast :: rest) maxRetries =
      { outcome := .unavailableService rlast, requestsMade := 1,
        cooldownSleeps := 0, retrySleeps := 0 } := by
    simp [makeRequestLoop, hlast]
  have hstep2 : makeRequestLoop maxRetries (rok :: rest2) maxRetries =
      { outcome := .success rok, requestsMade := 1,
        cooldownSleeps := 0, retrySleeps := 0 } := by
    simp [makeRequestLoop, hok]
  refine ⟨?_, ?_⟩
  · rw [make_request, h1, hstep1]
    simp [ReqTrace.mk.injEq]
    omega
  · rw [make_request, h2, hstep2]
    simp [ReqTrace.mk.injEq]
    omega

/-- Witness for C2 at `MaxRetries = 2`. -/
theorem make_request_503_retry_spec_witness :
    make_request 2 ([⟨503, "a"⟩] ++ ⟨503, "b"⟩ :: []) =
      { outcome := .unavailableService ⟨503, "b"⟩, requestsMade := 2,
        cooldownSleeps := 0, retrySleeps := 2 - 1 } ∧
    make_request 2 ([⟨503, "a"⟩] ++ ⟨200, "ok"⟩ :: []) =
      { outcome := .success ⟨200, "ok"⟩, requestsMade := 2,
        cooldownSleeps := 0, retrySleeps := 2 - 1 } :=
  make_request_503_retry_spec 2 [⟨503, "a"⟩] [] [] ⟨503, "b"⟩ ⟨200, "ok"⟩
    (by decide) (by decide) (by decide) (by decide) (by decide)

/-- C8: every 403 response triggers exactly one cooldown sleep and a retry
of the identical request; the retry counter (`attempts`, third argument of
the loop) is not incremented, no error is ever raised on this path, and any
number of consecutive 403s is absorbed (no retry ceiling)
(fetcher.py lines 145-149). -/
theorem make_request_403_cooldown_spec (maxRetries a n : Nat) (r : Response)
    (rs : List Response) (h403 : r.statusCode = 403) :
    makeRequestLoop maxRetries (List.replicate n r ++ rs) a =
      { outcome := (makeRequestLoop maxRetries rs a).outcome,
        requestsMade := (makeRequestLoop maxRetries rs a).requestsMade + n,
        cooldownSleeps :=
          (makeRequestLoop maxRetries rs a).cooldownSleeps + n,
        retrySleeps := (makeRequestLoop maxRetries rs a).retrySleeps } ∧
    make_request maxRetries (List.replicate n r ++ rs) =
      { outcome := (make_request maxRetries rs).outcome,
        requestsMade := (make_request maxRetries rs).requestsMade + n,
        cooldownSleeps := (make_request maxRetries rs).cooldownSleeps + n,
        retrySleeps := (make_request maxRetries rs).retrySleeps } :=
  ⟨makeRequestLoop_403_replicate maxRetries a r rs h403 n,
   makeRequestLoop_403_replicate maxRetries 1 r rs h403 n⟩

/-- Witness for C8: two 403s before a 200, starting at attempt 3. -/
theorem make_request_403_cooldown_spec_witness :
    makeRequestLoop 10 (List.replicate 2 ⟨403, "x"⟩ ++ [⟨200, "ok"⟩]) 3 =
      { outcome := (makeRequestLoop 10 [⟨200, "ok"⟩] 3).outcome,
        requestsMade :=
          (makeRequestLoop 10 [⟨200, "ok"⟩] 3).requestsMade + 2,
        cooldownSleeps :=
          (makeRequestLoop 10 [⟨200, "ok"⟩] 3).cooldownSleeps + 2,
        retrySleeps := (makeRequestLoop 10 [⟨200, "ok"⟩] 3).retrySleeps } ∧
    make_request 10 (List.replicate 2 ⟨403, "x"⟩ ++ [⟨200, "ok"⟩]) =
      { outcome := (make_request 10 [⟨200, "ok"⟩]).outcome,
        requestsMade := (make_request 10 [⟨200, "ok"⟩]).requestsMade + 2,
        cooldownSleeps :=
          (make_request 10 [⟨200, "ok"⟩]).cooldownSleeps + 2,
        retrySleeps := (make_request 10 [⟨200, "ok"⟩]).retrySleeps } :=
  make_request_403_cooldown_spec 10 3 2 ⟨403, "x"⟩ [⟨200, "ok"⟩] (by decide)

/-- C9: a response whose status is none of 200/403/503 raises
`UnsupportedStatusCode` carrying that response on the very first attempt:
one request, no sleeps, no retries (fetcher.py lines 161-169). -/
theorem make_request_unsupported_spec (maxRetries : Nat) (r : Response)
    (rest : List Response) (h403 : r.statusCode ≠ 403)
    (h503 : r.statusCode ≠ 503) (h200 : r.statusCode ≠ 200) :
    make_request maxRetries (r :: rest) =
      { outcome := .unsupportedStatusCode r, requestsMade := 1,
        cooldownSleeps := 0, retrySleeps := 0 } := by
  simp [make_request, makeRequestLoop, h403, h503, h200]

/-- Witness for C9 with a 404 response. -/
theorem make_request_unsupported_spec_witness :
    make_request 10 (⟨404, "not found"⟩ :: []) =
      { outcome := .unsupportedStatusCode ⟨404, "not found"⟩,
        requestsMade := 1, cooldownSleeps := 0, retrySleeps := 0 } :=
  make_request_unsupported_spec 10 ⟨404, "not found"⟩ [] (by decide)
    (by decide) (by decide)

/-! ## `CveFetcher._create_page_params_queue` (cve_fetcher.py lines 49-71)

The method reads `resultsPerPage`, `startIndex` and `totalResults` from the
first response, computes
`total_pages = math.ceil((total_results - start_index) / results_per_page)`
and enqueues one parameter dict `{'startIndex': offset}` per
`page_index in range(1, total_pages)` with
`offset = start_index + results_per_page * page_index`.  The queue is
modelled as the list of offsets in enqueue order.  `math.ceil` of an exact
integer quotient is modelled by `ceilDiv`; Python raises
`ZeroDivisionError` when `results_per_page = 0`, so the claims are settled
under `results_per_page ≠ 0`. -/

/-- Mathematical ceiling of `a / b` (`math.ceil(a / b)` on exact values),
via the identity `ceil x = -floor (-x)`; `Int.fdiv` is floor division.
Totalised with value `0` at `b = 0`, where Python raises. -/
def ceilDiv (a b : Int) : Int := -(Int.fdiv (-a) b)

/-- Python's `range(lo, hi)` over integers, as the list
`[lo, lo+1, ..., hi-1]` (empty when `hi ≤ lo`). -/
def intRange (lo hi : Int) : List Int :=
  (List.range (hi - lo).toNat).map (fun (k : Nat) => lo + (k : Int))

/-- `CveFetcher._create_page_params_queue`: the queue of page-offset
parameters built from the three pagination fields of the first response. -/
def create_page_params_queue
    (totalResults startIndex resultsPerPage : Int) : List Int :=
  let totalPages := ceilDiv (totalResults - startIndex) resultsPerPage
  (intRange 1 totalPages).map
    (fun pageIndex => startIndex + resultsPerPage * pageIndex)

/-- C1: page discovery produces exactly
`max 0 (ceil ((totalResults - startIndex) / resultsPerPage) - 1)` tasks,
the k-th enqueued offset is `startIndex + resultsPerPage * (k + 1)`
(the arithmetic sequence starting at `startIndex + resultsPerPage`), and
the queue is empty whenever `totalPages ≤ 1`
(cve_fetcher.py lines 49-71). -/
theorem create_page_params_queue_spec
    (totalResults startIndex resultsPerPage : Int)
    (_hr : resultsPerPage ≠ 0) :
    (create_page_params_queue totalResults startIndex resultsPerPage).length
        = (max 0 (ceilDiv (totalResults - startIndex) resultsPerPage - 1)).toNat ∧
    create_page_params_queue totalResults startIndex resultsPerPage =
      (List.range
          (max 0 (ceilDiv (totalResults - startIndex) resultsPerPage - 1)).toNat).map
        (fun (k : Nat) => startIndex + resultsPerPage * ((k : Int) + 1)) ∧
    (ceilDiv (totalResults - startIndex) resultsPerPage ≤ 1 →
      create_page_params_queue totalResults startIndex resultsPerPage = []) := by
  have hmax : (ceilDiv (totalResults - startIndex) resultsPerPage - 1).toNat
      = (max 0 (ceilDiv (totalResults - startIndex) resultsPerPage - 1)).toNat := by
    omega
  have hq : create_page_params_queue totalResults startIndex resultsPerPage =
      (List.range
          (max 0 (ceilDiv (totalResults - startIndex) resultsPerPage - 1)).toNat).map
        (fun (k : Nat) => startIndex + resultsPerPage * ((k : Int) + 1)) := by
    simp only [create_page_params_queue, intRange, List.map_map, ← hmax]
    refine List.map_congr_left ?_
    intro k _
    simp only [Function.comp_apply]
    ring
  refine ⟨?_, hq, ?_⟩
  · rw [hq, List.length_map, List.length_range]
  · intro hle
    have h0 : (max 0 (ceilDiv (totalResults - startIndex) resultsPerPage
        - 1)).toNat = 0 := by omega
    rw [hq, h0]
    simp

/-- Witness for C1 at the spec's example `totalResults = 230`,
`startIndex = 0`, `resultsPerPage = 100` (two tasks, offsets 100 and 200)
and the empty case `totalResults = 50`. -/
theorem create_page_params_queue_spec_witness :
    ((create_page_params_queue 230 0 100).length
        = (max 0 (ceilDiv (230 - 0) 100 - 1)).toNat ∧
      create_page_params_queue 230 0 100 =
        (List.range (max 0 (ceilDiv (230 - 0) 100 - 1)).toNat).map
          (fun (k : Nat) => 0 + 100 * ((k : Int) + 1)) ∧
      (ceilDiv (230 - 0) 100 ≤ 1 → create_page_params_queue 230 0 100 = [])) ∧
    create_page_params_queue 50 0 100 = [] ∧
    create_page_params_queue 230 0 100 = [100, 200] :=
  ⟨create_page_params_queue_spec 230 0 100 (by decide),
   (create_page_params_queue_spec 50 0 100 (by decide)).2.2 (by decide),
   by decide⟩

/-! ## `CveFetcher.fetch_days_back` — window sequence (cve_fetcher.py 73-100)

The method carves the requested span into windows of at most
`MAX_CONSECUTIVE_DAYS` days, walking backward from "now".  Timestamps are
modelled as integer day offsets relative to the moment of the call (`now`
is `0`, earlier instants are negative); each loop iteration subtracts
`timedelta(days=days_to_fetch)` exactly, so offsets stay integral.  The
`while days_left` loop is embedded with an explicit fuel argument equal to
the initial `days_left`: when `MAX_CONSECUTIVE_DAYS ≥ 1` every iteration
consumes at least one day, so the fuel is never exhausted; at
`MAX_CONSECUTIVE_DAYS = 0` the Python loop would never terminate and the
model returns the windows produced so far.  All theorems below assume
`1 ≤ maxConsecutiveDays`, which covers the source constant 120. -/

/-- One `self.fetch(...)` invocation issued by `fetch_days_back`: the
window's bounds (day offsets from "now") and its `last_fetch` flag. -/
structure WindowRun where
  startDate : Int
  endDate : Int
  lastFetch : Bool
deriving DecidableEq, Repr

/-- The `while days_left:` loop of `fetch_days_back`
(cve_fetcher.py lines 85-100), recorded as the list of issued runs. -/
def fetchWindowsLoop (mcd : Nat) : Nat → Nat → Int → List WindowRun
  | 0, _, _ => []
  | fuel + 1, daysLeft, endDate =>
    if daysLeft = 0 then []
    else
      let daysToFetch := min daysLeft mcd
      let startDate := endDate - (daysToFetch : Int)
      let daysLeft' := daysLeft - daysToFetch
      let lastFetch := if daysLeft' > 0 then false else true
      { startDate := startDate, endDate := endDate, lastFetch := lastFetch }
        :: fetchWindowsLoop mcd fuel daysLeft' startDate

/-- `CveFetcher.fetch_days_back`, observed as its sequence of window runs;
`end_date` starts at "now" (offset 0) and `days_left` at `days_back`. -/
def fetch_days_back (mcd daysBack : Nat) : List WindowRun :=
  fetchWindowsLoop mcd daysBack daysBack 0

theorem fetchWindowsLoop_zero (mcd fuel : Nat) (e : Int) :
    fetchWindowsLoop mcd fuel 0 e = [] := by
  cases fuel <;> simp [fetchWindowsLoop]

/-- Closed form of the window loop: the i-th run covers
`[end - min dl (mcd*(i+1)), end - mcd*i]` and is flagged last exactly when
it exhausts the remaining days. -/
theorem fetchWindowsLoop_closedForm (mcd : Nat) (hm : 1 ≤ mcd) :
    ∀ (fuel dl : Nat) (e : Int), dl ≤ fuel →
      fetchWindowsLoop mcd fuel dl e =
        (List.range ((dl + mcd - 1) / mcd)).map (fun (i : Nat) =>
          { startDate := e - (min dl (mcd * (i + 1)) : Nat),
            endDate := e - (mcd * i : Nat),
            lastFetch := decide (dl ≤ mcd * (i + 1)) }) := by
  intro fuel
  induction fuel with
  | zero =>
    intro dl e hdl
    have hdl0 : dl = 0 := by omega
    subst hdl0
    have h0 : (0 + mcd - 1) / mcd = 0 := Nat.div_eq_of_lt (by omega)
    rw [h0]
    simp [fetchWindowsLoop]
  | succ fuel ih =>
    intro dl e hdl
    by_cases hdl0 : dl = 0
    · subst hdl0
      have h0 : (0 + mcd - 1) / mcd = 0 := Nat.div_eq_of_lt (by omega)
      rw [h0]
      simp [fetchWindowsLoop]
    · have hdl1 : 1 ≤ dl := by omega
      rw [fetchWindowsLoop, if_neg hdl0]
      dsimp only
      by_cases hsmall : dl ≤ mcd
      · -- final window: daysToFetch = dl, tail is empty
        have hmin : min dl mcd = dl := by omega
        have hlen : (dl + mcd - 1) / mcd = 1 := by
          have h1 : dl + mcd - 1 = (dl - 1) + mcd := by omega
          rw [h1, Nat.add_div_right _ (by omega), Nat.div_eq_of_lt (by omega)]
        rw [hmin, hlen, Nat.sub_self, fetchWindowsLoop_zero]
        simp [List.range_succ, hmin, hsmall]
      · -- a full window of mcd days, then recurse
        have hbig : mcd < dl := by omega
        have hmin : min dl mcd = mcd := by omega
        have hpos : dl - mcd > 0 := by omega
        rw [hmin, if_pos hpos]
        have hrec := ih (dl - mcd) (e - (mcd : Int)) (by omega)
        rw [hrec]
        have hlen' : (dl - mcd + mcd - 1) / mcd = (dl - 1) / mcd := by
          have h : dl - mcd + mcd - 1 = dl - 1 := by omega
          rw [h]
        have hlen : (dl + mcd - 1) / mcd = (dl - 1) / mcd + 1 := by
          have h1 : dl + mcd - 1 = (dl - 1) + mcd := by omega
          rw [h1, Nat.add_div_right _ (by omega)]
        rw [hlen', hlen, List.range_succ_eq_map, List.map_cons, List.map_map]
        refine List.cons_eq_cons.mpr ⟨?_, ?_⟩
        · simp [hmin, hsmall]
        · refine List.map_congr_left ?_
          intro i _
          simp only [Function.comp_apply, Nat.succ_eq_add_one,
            WindowRun.mk.injEq]
          have hmul1 : mcd * (i + 1 + 1) = mcd * (i + 1) + mcd := by ring
          have hmul2 : mcd * (i + 1) = mcd * i + mcd := by ring
          refine ⟨?_, ?_, ?_⟩
          · have hval : min (dl - mcd) (mcd * (i + 1)) + mcd
                = min dl (mcd * (i + 1 + 1)) := by
              rw [hmul1]
              omega
            rw [← hval]
            push_cast
            ring
          · rw [hmul2]
            push_cast
            ring
          · rw [decide_eq_decide, hmul1]
            omega

/-- Characterisation of the ceiling-division window count: there are at
most `i` windows exactly when `mcd * i` days cover the span. -/
theorem window_count_le_iff (mcd d i : Nat) (hm : 1 ≤ mcd) (hd : 1 ≤ d) :
    (d + mcd - 1) / mcd ≤ i ↔ d ≤ mcd * i := by
  have h1 : d + mcd - 1 = (d - 1) + mcd := by omega
  rw [h1, Nat.add_div_right _ (by omega)]
  have h2 : ((d - 1) / mcd + 1 ≤ i) ↔ ((d - 1) / mcd < i) := by omega
  rw [h2, Nat.div_lt_iff_lt_mul (by omega), Nat.mul_comm]
  omega

/-- The window sizes of one loop pass sum to the days it was asked for. -/
theorem fetchWindowsLoop_sum (mcd : Nat) (hm : 1 ≤ mcd) :
    ∀ (fuel dl : Nat) (e : Int), dl ≤ fuel →
      ((fetchWindowsLoop mcd fuel dl e).map
          (fun w => w.endDate - w.startDate)).sum = (dl : Int) := by
  intro fuel
  induction fuel with
  | zero =>
    intro dl e h
    have h0 : dl = 0 := by omega
    subst h0
    simp [fetchWindowsLoop]
  | succ fuel ih =>
    intro dl e h
    by_cases h0 : dl = 0
    · subst h0
      simp [fetchWindowsLoop]
    · rw [fetchWindowsLoop, if_neg h0]
      dsimp only
      rw [List.map_cons, List.sum_cons,
        ih (dl - min dl mcd) (e - ((min dl mcd : Nat) : Int)) (by omega)]
      dsimp only
      omega

/-- C4: for `d > maxConsecutiveDays` the range controller issues exactly
`ceil (d / mcd)` window runs; consecutive runs are contiguous (each run's
start instant is the next run's end instant), the i-th run spans
`min (daysLeft_i) mcd` days where `daysLeft_i = d - mcd * i`, the window
sizes sum to `d` days, and exactly the final run carries the
`last_fetch` flag (cve_fetcher.py lines 84-100). -/
theorem fetch_days_back_windows_spec (mcd d : Nat) (hm : 1 ≤ mcd)
    (hd : mcd < d) :
    (fetch_days_back mcd d).length = (d + mcd - 1) / mcd ∧
    ((fetch_days_back mcd d).map WindowRun.startDate).dropLast
        = ((fetch_days_back mcd d).map WindowRun.endDate).drop 1 ∧
    (fetch_days_back mcd d).map (fun w => w.endDate - w.startDate)
        = (List.range ((d + mcd - 1) / mcd)).map
            (fun (i : Nat) => ((min (d - mcd * i) mcd : Nat) : Int)) ∧
    ((fetch_days_back mcd d).map (fun w => w.endDate - w.startDate)).sum
        = (d : Int) ∧
    (fetch_days_back mcd d).map WindowRun.lastFetch
        = (List.range ((d + mcd - 1) / mcd)).map
            (fun (i : Nat) => decide (i + 1 = (d + mcd - 1) / mcd)) := by
  have hd1 : 1 ≤ d := by omega
  have hCF : fetch_days_back mcd d =
      (List.range ((d + mcd - 1) / mcd)).map (fun (i : Nat) =>
        { startDate := (0 : Int) - (min d (mcd * (i + 1)) : Nat),
          endDate := (0 : Int) - (mcd * i : Nat),
          lastFetch := decide (d ≤ mcd * (i + 1)) }) :=
    fetchWindowsLoop_closedForm mcd hm d d 0 (le_refl d)
  refine ⟨?_, ?_, ?_, ?_, ?_⟩
  · rw [hCF]
    simp
  · rw [hCF]
    apply List.ext_getElem
    · simp
    · intro i h1 h2
      simp only [List.length_dropLast, List.length_map, List.length_range] at h1
      simp only [List.getElem_dropLast, List.getElem_drop, List.getElem_map,
        List.getElem_range]
      have hlt : mcd * (i + 1) < d := by
        by_contra hcon
        have := (window_count_le_iff mcd d (i + 1) hm hd1).mpr (by omega)
        omega
      have hmin : min d (mcd * (i + 1)) = mcd * (i + 1) := by omega
      have hc : mcd * (1 + i) = mcd * (i + 1) := by ring
      rw [hmin, hc]
  · rw [hCF, List.map_map]
    refine List.map_congr_left ?_
    intro i hi
    simp only [List.mem_range] at hi
    simp only [Function.comp_apply]
    have hlt : mcd * i < d := by
      by_contra hcon
      have := (window_count_le_iff mcd d i hm hd1).mpr (by omega)
      omega
    have hmul : mcd * (i + 1) = mcd * i + mcd := by ring
    rw [hmul]
    omega
  · exact fetchWindowsLoop_sum mcd hm d d 0 (le_refl d)
  · rw [hCF, List.map_map]
    refine List.map_congr_left ?_
    intro i hi
    simp only [List.mem_range] at hi
    simp only [Function.comp_apply]
    rw [decide_eq_decide]
    have hiff := window_count_le_iff mcd d (i + 1) hm hd1
    constructor
    · intro hdle
      have := hiff.mpr hdle
      omega
    · intro heq
      exact hiff.mp (by omega)

/-- Witness for C4 at `mcd = 2`, `d = 5` (three windows: 2, 2 and 1 days). -/
theorem fetch_days_back_windows_spec_witness :
    (fetch_days_back 2 5).length = (5 + 2 - 1) / 2 ∧
    ((fetch_days_back 2 5).map WindowRun.startDate).dropLast
        = ((fetch_days_back 2 5).map WindowRun.endDate).drop 1 ∧
    (fetch_days_back 2 5).map (fun w => w.endDate - w.startDate)
        = (List.range ((5 + 2 - 1) / 2)).map
            (fun (i : Nat) => ((min (5 - 2 * i) 2 : Nat) : Int)) ∧
    ((fetch_days_back 2 5).map (fun w => w.endDate - w.startDate)).sum
        = ((5 : Nat) : Int) ∧
    (fetch_days_back 2 5).map WindowRun.lastFetch
        = (List.range ((5 + 2 - 1) / 2)).map
            (fun (i : Nat) => decide (i + 1 = (5 + 2 - 1) / 2)) :=
  fetch_days_back_windows_spec 2 5 (by decide) (by decide)

/-- C6 counterexample: for `daysBack = 250` and
`MAX_CONSECUTIVE_DAYS = 120` the produced windows do have sizes
`[120, 120, 10]`, but their end boundaries are `0, -120, -240` — newest
first — so the produced sequence is not in chronological order from oldest
to newest end boundary, refuting the claim's ordering clause. -/
theorem fetch_days_back_250_order_counterexample :
    ¬ ((fetch_days_back MAX_CONSECUTIVE_DAYS 250).map
          (fun w => w.endDate - w.startDate) = [120, 120, 10] ∧
        ((fetch_days_back MAX_CONSECUTIVE_DAYS 250).map
            WindowRun.endDate).Pairwise (· ≤ ·)) := by
  decide

/-- C6 (amended): for `daysBack = 250` and `MAX_CONSECUTIVE_DAYS = 120`,
`fetch_days_back` produces exactly three windows of sizes
`[120, 120, 10]` days in execution order, whose end boundaries run from
newest ("now", offset 0) backwards to oldest, and only the final (oldest)
run is flagged as terminal (cve_fetcher.py lines 84-100). -/
theorem fetch_days_back_250_windows :
    fetch_days_back MAX_CONSECUTIVE_DAYS 250 =
      [{ startDate := -120, endDate := 0, lastFetch := false },
       { startDate := -240, endDate := -120, lastFetch := false },
       { startDate := -250, endDate := -240, lastFetch := true }] := by
  decide

/-! ## `Fetcher._fetch` / `Fetcher.fetch` — output-queue trace
(fetcher.py lines 172-231, cve_fetcher.py lines 41-71)

A run's interaction with the NVD server is abstracted by a `RunServer`:
the parsed JSON of the first-page response (or `none` when `make_request`
raised `QueryFailed`, i.e. the first request failed after its retries), and
the parsed JSON each page-offset request would yield (`none` for a
page-level `QueryFailed`, which the worker logs and skips).

`_fetch` pushes only parsed entries onto `output_queue`; `fetch` appends
the `None` end-of-queue sentinel when `last_fetch` is true.  Queue items
are therefore `Option Entry`, with `none` standing for Python's `None`
sentinel.  Workers interleave nondeterministically, which permutes the
per-page entries within one run; the claims below only concern entry
counts, emptiness and sentinel placement, which are interleaving-invariant,
so the model lists the pages' entries in queue order.

One genuine error path must be kept: when the first page succeeds but
reports `resultsPerPage = 0`, the division at cve_fetcher.py line 60 raises
a `ZeroDivisionError` that nothing catches (`_fetch` only catches
`QueryFailed`), AFTER `_parse_response` has already pushed the first page's
entries.  The exception propagates through `fetch` — skipping
`_finalize_fetch`, so no sentinel — and out of `fetch_days_back`, aborting
all remaining windows.  The `crashed` flag records this. -/

/-- An item on `output_queue`: a parsed entry, or Python's `None`
sentinel. -/
abbrev Item := Option Entry

/-- Parsed JSON of one NVD response: the `vulnerabilities` array and the
three pagination fields read by `_create_page_params_queue`. -/
structure CveResponse where
  vulnerabilities : List Entry
  resultsPerPage : Int
  startIndex : Int
  totalResults : Int

/-- Server behaviour for one run: the first-page result and the result of
the page request at each offset (`none` models `QueryFailed`). -/
structure RunServer where
  firstPage : Option CveResponse
  pageAt : Int → Option CveResponse

/-- Observable effect of one `_fetch` run: the entries pushed to
`output_queue`, the page tasks created, the workers started, and whether
the run died of the uncaught `ZeroDivisionError`. -/
structure RunEmits where
  entries : List Entry
  tasks : Nat
  workers : Nat
  crashed : Bool
deriving Repr

/-- `Fetcher._fetch` (fetcher.py lines 196-231).  A failed first request is
caught and ends the run with nothing emitted.  On a successful first
request the first page is parsed into the queue; then, if the response
reports `resultsPerPage = 0`, `_create_page_params_queue` raises an
uncaught `ZeroDivisionError` (cve_fetcher.py line 60) — no tasks, no
workers, `crashed`.  Otherwise page discovery yields the offsets,
`min(queue size, MAX_WORKERS)` workers run them (none when the queue is
empty), and failed pages are skipped. -/
def fetchRunEmits (maxWorkers : Nat) (srv : RunServer) : RunEmits :=
  match srv.firstPage with
  | none =>
    -- first request failed with QueryFailed: log and return
    { entries := [], tasks := 0, workers := 0, crashed := false }
  | some resp =>
    if resp.resultsPerPage = 0 then
      -- first page already parsed; the ceil division then raises
      { entries := resp.vulnerabilities, tasks := 0, workers := 0,
        crashed := true }
    else
      let offsets := create_page_params_queue
        resp.totalResults resp.startIndex resp.resultsPerPage
      let workerCount := if offsets.isEmpty then 0
        else min offsets.length maxWorkers
      let pageEntries := offsets.map (fun off =>
        match srv.pageAt off with
        | none => []                -- page request failed: log and move on
        | some r => r.vulnerabilities)
      { entries := resp.vulnerabilities ++ pageEntries.flatten,
        tasks := offsets.length, workers := workerCount, crashed := false }

/-- `Fetcher.fetch` (fetcher.py lines 172-186): run `_fetch`, then put the
`None` sentinel via `_finalize_fetch` when `last_fetch` is true — unless
`_fetch` raised, in which case the exception propagates before the
sentinel is placed.  Returns the queue items together with the crash
flag. -/
def fetchEmits (maxWorkers : Nat) (srv : RunServer) (lastFetch : Bool) :
    List Item × Bool :=
  let r := fetchRunEmits maxWorkers srv
  if r.crashed then (r.entries.map some, true)
  else (r.entries.map some ++ (if lastFetch then [none] else []), false)

/-- The `while days_left:` loop of `fetch_days_back` again
(cve_fetcher.py lines 85-100), this time recording the concatenated
output-queue trace of the `self.fetch(...)` calls; `runIdx` numbers the
runs so each can meet a different server behaviour.  A crashed run ends
the trace: its exception aborts the remaining windows. -/
def fetchSpanLoop (mcd maxWorkers : Nat) (servers : Nat → RunServer) :
    Nat → Nat → Nat → List Item
  | 0, _, _ => []
  | fuel + 1, daysLeft, runIdx =>
    if daysLeft = 0 then []
    else
      let daysToFetch := min daysLeft mcd
      let daysLeft' := daysLeft - daysToFetch
      let lastFetch := if daysLeft' > 0 then false else true
      let run := fetchEmits maxWorkers (servers runIdx) lastFetch
      if run.2 then run.1
      else run.1
        ++ fetchSpanLoop mcd maxWorkers servers fuel daysLeft' (runIdx + 1)

/-- Output-queue trace of a whole `fetch_days_back(daysBack)` call. -/
def fetchSpanTrace (mcd maxWorkers : Nat) (servers : Nat → RunServer)
    (daysBack : Nat) : List Item :=
  fetchSpanLoop mcd maxWorkers servers daysBack daysBack 0

theorem fetchSpanLoop_zero (mcd mw fuel i : Nat) (servers : Nat → RunServer) :
    fetchSpanLoop mcd mw servers fuel 0 i = [] := by
  cases fuel <;> simp [fetchSpanLoop]

/-- A server whose first page never reports `resultsPerPage = 0` cannot
trip the division by zero. -/
theorem fetchRunEmits_not_crashed (mw : Nat) (srv : RunServer)
    (h : ∀ resp, srv.firstPage = some resp → resp.resultsPerPage ≠ 0) :
    (fetchRunEmits mw srv).crashed = false := by
  cases hfp : srv.firstPage with
  | none => simp [fetchRunEmits, hfp]
  | some resp => simp [fetchRunEmits, hfp, h resp hfp]

/-- A non-crashing, non-final run never contributes the sentinel; a
non-crashing final run contributes exactly one. -/
theorem fetchEmits_count_none (mw : Nat) (srv : RunServer) (b : Bool)
    (hc : (fetchRunEmits mw srv).crashed = false) :
    (fetchEmits mw srv b).1.count none = (if b then 1 else 0) ∧
    (fetchEmits mw srv b).2 = false := by
  have h0 : ((fetchRunEmits mw srv).entries.map some).count (none : Item)
      = 0 := List.count_eq_zero.mpr (by simp)
  cases b <;> simp [fetchEmits, hc, List.count_append, h0]

theorem fetchEmits_getLast_true (mw : Nat) (srv : RunServer)
    (hc : (fetchRunEmits mw srv).crashed = false) :
    (fetchEmits mw srv true).1.getLast? = some none := by
  simp [fetchEmits, hc]

/-- As long as days remain and no consulted first page reports
`resultsPerPage = 0`, the span loop's trace carries exactly one sentinel,
and it is the very last item of the trace. -/
theorem fetchSpanLoop_one_sentinel (mcd mw : Nat) (servers : Nat → RunServer)
    (hm : 1 ≤ mcd)
    (hsrv : ∀ i resp, (servers i).firstPage = some resp →
      resp.resultsPerPage ≠ 0) :
    ∀ (fuel dl i : Nat), 1 ≤ dl → dl ≤ fuel →
      (fetchSpanLoop mcd mw servers fuel dl i).count none = 1 ∧
      (fetchSpanLoop mcd mw servers fuel dl i).getLast? = some none := by
  intro fuel
  induction fuel with
  | zero => intro dl i h1 h2; omega
  | succ fuel ih =>
    intro dl i h1 h2
    rw [fetchSpanLoop, if_neg (by omega)]
    dsimp only
    have hcr : (fetchRunEmits mw (servers i)).crashed = false :=
      fetchRunEmits_not_crashed mw (servers i) (hsrv i)
    by_cases hlast : dl - min dl mcd > 0
    · rw [if_pos hlast]
      rw [(fetchEmits_count_none mw (servers i) false hcr).2,
        if_neg Bool.false_ne_true]
      have hrec := ih (dl - min dl mcd) (i + 1) (by omega) (by omega)
      have hne : fetchSpanLoop mcd mw servers fuel (dl - min dl mcd) (i + 1)
          ≠ [] := by
        intro hnil
        rw [hnil] at hrec
        simp at hrec
      refine ⟨?_, ?_⟩
      · rw [List.count_append,
          (fetchEmits_count_none mw (servers i) false hcr).1, hrec.1]
        simp
      · rw [List.getLast?_append_of_ne_nil _ hne, hrec.2]
    · rw [if_neg hlast]
      rw [(fetchEmits_count_none mw (servers i) true hcr).2,
        if_neg Bool.false_ne_true]
      have h0 : dl - min dl mcd = 0 := by omega
      rw [h0, fetchSpanLoop_zero, List.append_nil]
      exact ⟨by rw [(fetchEmits_count_none mw (servers i) true hcr).1]; simp,
        fetchEmits_getLast_true mw _ hcr⟩

/-- C3 (amended: `1 ≤ daysBack`, and no run's successfully fetched first
page reports `resultsPerPage = 0`): over a whole `fetch_days_back` call
the output-queue trace contains exactly one `None` sentinel, and it is the
final item of the trace — it follows the last window's data and is emitted
by no earlier run.  This includes runs whose first-page request failed
with `QueryFailed`, because the run flagged last schedules the sentinel
unconditionally (fetcher.py lines 172-194, cve_fetcher.py lines 87-100).
The two excluded cases are refuted concretely below: at `daysBack = 0` the
loop never runs, and a zero `resultsPerPage` raises an uncaught
`ZeroDivisionError` that aborts the call before any sentinel. -/
theorem fetchSpanTrace_one_sentinel (mcd mw daysBack : Nat)
    (servers : Nat → RunServer) (hm : 1 ≤ mcd) (hd : 1 ≤ daysBack)
    (hsrv : ∀ i resp, (servers i).firstPage = some resp →
      resp.resultsPerPage ≠ 0) :
    (fetchSpanTrace mcd mw servers daysBack).count none = 1 ∧
    (fetchSpanTrace mcd mw servers daysBack).getLast? = some none :=
  fetchSpanLoop_one_sentinel mcd mw servers hm hsrv daysBack daysBack 0 hd
    (le_refl daysBack)

/-- A server whose every request fails with `QueryFailed`. -/
def failingServer : RunServer :=
  { firstPage := none, pageAt := fun _ => none }

/-- A server that answers the first page with one entry and no further
pages. -/
def singlePageServer : RunServer :=
  { firstPage := some
      { vulnerabilities := [7], resultsPerPage := 2000, startIndex := 0,
        totalResults := 1 },
    pageAt := fun _ => none }

/-- A server whose successful first page reports `resultsPerPage = 0`,
sending `_create_page_params_queue` into the uncaught division by zero of
cve_fetcher.py line 60. -/
def zeroPerPageServer : RunServer :=
  { firstPage := some
      { vulnerabilities := [3], resultsPerPage := 0, startIndex := 0,
        totalResults := 0 },
    pageAt := fun _ => none }

/-- Witness for C3: two one-day windows against an always-failing server
still yield exactly one sentinel, at the end of the trace. -/
theorem fetchSpanTrace_one_sentinel_witness :
    (fetchSpanTrace 1 5 (fun _ => failingServer) 2).count none = 1 ∧
    (fetchSpanTrace 1 5 (fun _ => failingServer) 2).getLast? = some none :=
  fetchSpanTrace_one_sentinel 1 5 2 (fun _ => failingServer) (by decide)
    (by decide) (fun _ _ h => Option.noConfusion h)

/-- C3 counterexample: at `daysBack = 0` the `while days_left:` loop never
runs and no sentinel is placed; and at `daysBack = 30` against a server
whose first page reports `resultsPerPage = 0`, the run pushes its first
page and then dies of the uncaught `ZeroDivisionError`, so again no
sentinel is ever placed.  Both refute the claim's "exactly one sentinel
per call". -/
theorem fetchSpanTrace_no_sentinel_counterexample :
    ¬ ((fetchSpanTrace MAX_CONSECUTIVE_DAYS MAX_WORKERS
          (fun _ => singlePageServer) 0).count none = 1) ∧
    ¬ ((fetchSpanTrace MAX_CONSECUTIVE_DAYS MAX_WORKERS
          (fun _ => zeroPerPageServer) 30).count none = 1) := by
  decide

/-- C7: when a run's first-page request raises `QueryFailed`, `_fetch`
catches it and returns: no entries are pushed for that run, no page tasks
are created, no workers are started (and the run does not crash); the
surrounding span loop simply proceeds to the next window, the failed run
contributing nothing to the trace (fetcher.py lines 196-231). -/
theorem fetch_first_page_failure_spec (mw mcd d fuel i : Nat)
    (servers : Nat → RunServer) (hfail : (servers i).firstPage = none)
    (hm : 1 ≤ mcd) (hd : mcd < d) :
    fetchRunEmits mw (servers i)
        = { entries := [], tasks := 0, workers := 0, crashed := false } ∧
    fetchEmits mw (servers i) false = ([], false) ∧
    fetchEmits mw (servers i) true = ([none], false) ∧
    fetchSpanLoop mcd mw servers (fuel + 1) d i
        = fetchSpanLoop mcd mw servers fuel (d - mcd) (i + 1) := by
  have hrun : fetchRunEmits mw (servers i)
      = { entries := [], tasks := 0, workers := 0, crashed := false } := by
    rw [fetchRunEmits, hfail]
  refine ⟨hrun, ?_, ?_, ?_⟩
  · simp [fetchEmits, hrun]
  · simp [fetchEmits, hrun]
  · rw [fetchSpanLoop, if_neg (by omega)]
    have hmin : min d mcd = mcd := by omega
    simp [fetchEmits, hrun, hmin, show 0 < d - mcd from by omega]

/-- Witness for C7: a failing first window out of `250` days leaves the
rest of the span to run. -/
theorem fetch_first_page_failure_spec_witness :
    fetchRunEmits 5 ((fun _ => failingServer) 0)
        = { entries := [], tasks := 0, workers := 0, crashed := false } ∧
    fetchEmits 5 ((fun _ => failingServer) 0) false = ([], false) ∧
    fetchEmits 5 ((fun _ => failingServer) 0) true = ([none], false) ∧
    fetchSpanLoop 120 5 (fun _ => failingServer) 250 250 0
        = fetchSpanLoop 120 5 (fun _ => failingServer) 249 (250 - 120) 1 :=
  fetch_first_page_failure_spec 5 120 250 249 0 (fun _ => failingServer)
    (by rfl) (by decide) (by decide)
/-! ## `SaveFileParser.run` (save_file_parser.py lines 34-71)

The sink thread takes one item before its loop and then, per iteration:
opens a new file when `entry_count == 0`, writes the serialized item
(`json.dumps(None)` is the line `"null"`, so the written value keeps its
`Option` shape here), closes the file and resets the count when the
configured maximum is reached, takes the next item, and terminates —
closing the file — only when that NEXT item is `None`.  The input queue is
modelled by the list of items that ever arrive; `get()` on the exhausted
list blocks forever, recorded by the `blocked` flag (anything written to a
still-open file at that point has not been flushed into a closed batch). -/

/-- Final state of the sink: the closed batch files in creation order, the
contents of a file still open when the thread blocked (if any), and whether
the thread blocked on `get()` instead of terminating via the sentinel. -/
structure SinkState where
  closedFiles : List (List Item)
  openFile : Option (List Item)
  blocked : Bool
deriving DecidableEq, Repr

/-- Lines 49-65 of save_file_parser.py: open a file if none is open, write
the entry, and close the file when `max_entries` is reached.  Returns the
new `(entry_count, current file contents, closed files)`. -/
def writeStep (maxEntries : Nat) (entry : Item) (entryCount : Nat)
    (current : List Item) (closedFiles : List (List Item)) :
    Nat × List Item × List (List Item) :=
  let current := (if entryCount = 0 then [] else current) ++ [entry]
  let entryCount := entryCount + 1
  if entryCount = maxEntries then (0, [], closedFiles ++ [current])
  else (entryCount, current, closedFiles)

/-- The `while True:` loop of `SaveFileParser.run`
(save_file_parser.py lines 48-71).  The first list argument holds the items
still to be taken from `input_queue`; `entry` is the item taken just before
the current iteration. -/
def saveLoop (maxEntries : Nat) :
    List Item → Item → Nat → List Item → List (List Item) → SinkState
  | [], entry, c, cur, closed =>
    -- the final `input_queue.get()` blocks forever
    match writeStep maxEntries entry c cur closed with
    | (c', cur', closed') =>
      { closedFiles := closed',
        openFile := if c' = 0 then none else some cur', blocked := true }
  | none :: _, entry, c, cur, closed =>
    -- `entry is None`: close the open file (a no-op when it was already
    -- closed at the max-entries boundary) and return
    match writeStep maxEntries entry c cur closed with
    | (c', cur', closed') =>
      { closedFiles := if c' = 0 then closed' else closed' ++ [cur'],
        openFile := none, blocked := false }
  | some e :: rest, entry, c, cur, closed =>
    match writeStep maxEntries entry c cur closed with
    | (c', cur', closed') => saveLoop maxEntries rest (some e) c' cur' closed'

/-- `SaveFileParser.run`: the initial `get()` before the loop
(save_file_parser.py line 46); on an empty stream the thread blocks before
writing anything. -/
def saveFileParserRun (maxEntries : Nat) (stream : List Item) :
    Option SinkState :=
  match stream with
  | [] => none
  | first :: rest => some (saveLoop maxEntries rest first 0 [] [])

/-- Chunking a list into consecutive blocks of `k` elements (the last block
may be shorter); fuel-driven so that it computes by `decide`. -/
def chunksGo (k : Nat) : Nat → List Item → List (List Item)
  | 0, _ => []
  | _ + 1, [] => []
  | fuel + 1, l => l.take k :: chunksGo k fuel (l.drop k)

/-- Consecutive `k`-blocks of a list. -/
def chunks (k : Nat) (l : List Item) : List (List Item) :=
  chunksGo k l.length l

theorem chunksGo_nil (k fuel : Nat) : chunksGo k fuel [] = [] := by
  cases fuel <;> simp [chunksGo]

/-- The fuel of `chunksGo` is irrelevant once it covers the list length. -/
theorem chunksGo_fuel (k : Nat) (hk : 1 ≤ k) :
    ∀ (f1 : Nat) (l : List Item) (f2 : Nat), l.length ≤ f1 → l.length ≤ f2 →
      chunksGo k f1 l = chunksGo k f2 l := by
  intro f1
  induction f1 with
  | zero =>
    intro l f2 h1 h2
    have : l = [] := by
      cases l with
      | nil => rfl
      | cons a t => simp at h1
    subst this
    rw [chunksGo_nil, chunksGo_nil]
  | succ f1 ih =>
    intro l f2 h1 h2
    cases l with
    | nil => rw [chunksGo_nil, chunksGo_nil]
    | cons a t =>
      cases f2 with
      | zero => simp at h2
      | succ f2 =>
        show (a :: t).take k :: chunksGo k f1 ((a :: t).drop k)
            = (a :: t).take k :: chunksGo k f2 ((a :: t).drop k)
        have hlen : ((a :: t).drop k).length ≤ f1 := by
          simp [List.length_drop] at h1 ⊢
          omega
        have hlen2 : ((a :: t).drop k).length ≤ f2 := by
          simp [List.length_drop] at h2 ⊢
          omega
        rw [ih _ f2 hlen hlen2]

/-- One-step unfolding of `chunks` on a nonempty list. -/
theorem chunks_cons (k : Nat) (hk : 1 ≤ k) (l : List Item) (hl : l ≠ []) :
    chunks k l = l.take k :: chunks k (l.drop k) := by
  cases l with
  | nil => exact absurd rfl hl
  | cons a t =>
    show chunksGo k (t.length + 1) (a :: t)
        = (a :: t).take k :: chunks k ((a :: t).drop k)
    rw [show chunksGo k (t.length + 1) (a :: t)
        = (a :: t).take k :: chunksGo k t.length ((a :: t).drop k) from rfl]
    rw [chunks, chunksGo_fuel k hk t.length ((a :: t).drop k) _
      (by simp [List.length_drop]; omega) (le_refl _)]

theorem chunks_of_length_le (k : Nat) (hk : 1 ≤ k) (l : List Item)
    (hne : l ≠ []) (hle : l.length ≤ k) : chunks k l = [l] := by
  rw [chunks_cons k hk l hne, List.take_of_length_le hle,
    List.drop_eq_nil_of_le hle]
  rfl

/-- Number of `k`-blocks: the ceiling of `length / k`. -/
theorem chunks_length (k : Nat) (hk : 1 ≤ k) :
    ∀ (n : Nat) (l : List Item), l.length ≤ n → l ≠ [] →
      (chunks k l).length = (l.length + k - 1) / k := by
  intro n
  induction n with
  | zero =>
    intro l h1 h2
    cases l with
    | nil => exact absurd rfl h2
    | cons a t => simp at h1
  | succ n ih =>
    intro l h1 h2
    have h1len : 1 ≤ l.length := by
      cases l with
      | nil => exact absurd rfl h2
      | cons a t => simp
    rw [chunks_cons k hk l h2]
    by_cases hsmall : l.length ≤ k
    · have hdrop : l.drop k = [] := List.drop_eq_nil_of_le hsmall
      rw [hdrop]
      have heq : l.length + k - 1 = (l.length - 1) + k := by omega
      rw [heq, Nat.add_div_right _ (by omega), Nat.div_eq_of_lt (by omega)]
      rfl
    · have hbig : k < l.length := by omega
      have hdne : l.drop k ≠ [] := by
        intro hnil
        have := congrArg List.length hnil
        simp [List.length_drop] at this
        omega
      have hrec := ih (l.drop k) (by simp [List.length_drop]; omega) hdne
      simp only [List.length_cons, hrec, List.length_drop]
      have e1 : l.length - k + k - 1 = l.length - 1 := by omega
      have e2 : l.length + k - 1 = (l.length - 1) + k := by omega
      rw [e1, e2, Nat.add_div_right _ (by omega)]

/-- Every `k`-block holds exactly `k` items except the last, which holds
the `length - k * (blocks - 1)` remaining ones. -/
theorem chunks_sizes (k : Nat) (hk : 1 ≤ k) :
    ∀ (n : Nat) (l : List Item), l.length ≤ n → l ≠ [] →
      (chunks k l).map List.length
        = List.replicate ((chunks k l).length - 1) k
            ++ [l.length - k * ((chunks k l).length - 1)] := by
  intro n
  induction n with
  | zero =>
    intro l h1 h2
    cases l with
    | nil => exact absurd rfl h2
    | cons a t => simp at h1
  | succ n ih =>
    intro l h1 h2
    have h1len : 1 ≤ l.length := by
      cases l with
      | nil => exact absurd rfl h2
      | cons a t => simp
    by_cases hsmall : l.length ≤ k
    · rw [chunks_of_length_le k hk l h2 hsmall]
      simp
    · have hbig : k < l.length := by omega
      have hdne : l.drop k ≠ [] := by
        intro hnil
        have := congrArg List.length hnil
        simp [List.length_drop] at this
        omega
      have hdroplen : (l.drop k).length = l.length - k := by
        simp [List.length_drop]
      have hrec := ih (l.drop k) (by omega) hdne
      have hcnt1 : 1 ≤ (chunks k (l.drop k)).length := by
        rw [chunks_cons k hk (l.drop k) hdne]
        simp
      rw [chunks_cons k hk l h2]
      simp only [List.map_cons, List.length_cons, hrec]
      have hlk : (l.take k).length = k :=
        List.length_take_of_le (by omega)
      rw [hlk]
      have hrepl : List.replicate ((chunks k (l.drop k)).length + 1 - 1) k
          = k :: List.replicate ((chunks k (l.drop k)).length - 1) k := by
        have h : (chunks k (l.drop k)).length + 1 - 1
            = ((chunks k (l.drop k)).length - 1) + 1 := by omega
        rw [h, List.replicate_succ]
      rw [hrepl]
      simp only [List.cons_append, List.cons.injEq, true_and]
      have hval : (l.drop k).length - k * ((chunks k (l.drop k)).length - 1)
          = l.length - k * ((chunks k (l.drop k)).length + 1 - 1) := by
        have hL : 1 ≤ (chunks k (l.drop k)).length := hcnt1
        have hmul : k * ((chunks k (l.drop k)).length + 1 - 1)
            = k * ((chunks k (l.drop k)).length - 1) + k := by
          have h : (chunks k (l.drop k)).length + 1 - 1
              = ((chunks k (l.drop k)).length - 1) + 1 := by omega
          rw [h]
          ring
        rw [hmul, List.length_drop]
        omega
      rw [← hval]

/-- `writeStep` in terms of the invariant `entry_count = current length`. -/
theorem writeStep_eq (k : Nat) (entry : Item) (cur : List Item)
    (closed : List (List Item)) :
    writeStep k entry cur.length cur closed =
      if cur.length + 1 = k then (0, [], closed ++ [cur ++ [entry]])
      else (cur.length + 1, cur ++ [entry], closed) := by
  rw [writeStep]
  by_cases h0 : cur.length = 0
  · have hnil : cur = [] := List.eq_nil_of_length_eq_zero h0
    subst hnil
    simp
  · simp [h0]

/-- Running the sink loop over `es` entries followed by the sentinel, while
a file holding `cur` is open (and below the limit), terminates cleanly and
closes exactly the `k`-blocks of everything written. -/
theorem saveLoop_entries (k : Nat) (hk : 1 ≤ k) :
    ∀ (es : List Entry) (e0 : Entry) (cur : List Item)
      (closed : List (List Item)), cur.length + 1 ≤ k →
      saveLoop k (es.map some ++ [none]) (some e0) cur.length cur closed =
        { closedFiles := closed ++ chunks k (cur ++ some e0 :: es.map some),
          openFile := none, blocked := false } := by
  intro es
  induction es with
  | nil =>
    intro e0 cur closed hlen
    simp only [List.map_nil, List.nil_append, List.cons_append]
    rw [saveLoop, writeStep_eq]
    have hchunks : chunks k (cur ++ [some e0]) = [cur ++ [some e0]] := by
      refine chunks_of_length_le k hk _ (by simp) ?_
      simp
      omega
    by_cases hhit : cur.length + 1 = k
    · rw [if_pos hhit]
      simp [hchunks]
    · rw [if_neg hhit]
      have hne : ¬ (cur.length + 1 = 0) := by omega
      simp [hne, hchunks]
  | cons e1 es ih =>
    intro e0 cur closed hlen
    simp only [List.map_cons, List.cons_append]
    rw [saveLoop, writeStep_eq]
    by_cases hhit : cur.length + 1 = k
    · rw [if_pos hhit]
      have hrec := ih e1 [] (closed ++ [cur ++ [some e0]]) (by simp; omega)
      simp only [List.length_nil, List.nil_append] at hrec
      show saveLoop k (es.map some ++ [none]) (some e1) 0 []
          (closed ++ [cur ++ [some e0]]) = _
      rw [hrec]
      have hlentake : (cur ++ [some e0]).length = k := by
        simp
        omega
      have hchunks : chunks k (cur ++ some e0 :: some e1 :: es.map some)
          = (cur ++ [some e0]) :: chunks k (some e1 :: es.map some) := by
        have hsplit : cur ++ some e0 :: some e1 :: es.map some
            = (cur ++ [some e0]) ++ (some e1 :: es.map some) := by
          simp
        rw [hsplit, chunks_cons k hk _ (by simp), ← hlentake,
          List.take_left, List.drop_left]
      rw [hchunks]
      simp
    · rw [if_neg hhit]
      have hrec := ih e1 (cur ++ [some e0]) closed (by simp; omega)
      show saveLoop k (es.map some ++ [none]) (some e1) (cur.length + 1)
          (cur ++ [some e0]) closed = _
      rw [show cur.length + 1 = (cur ++ [some e0]).length by simp, hrec]
      simp

/-- C5 (amended with `n ≥ 1`): fed `n ≥ 1` entries followed by the `None`
sentinel, the sink terminates cleanly having closed exactly the consecutive
`k`-blocks of the entries — `ceil (n / k)` batch files, each holding
exactly `k` entries except the last, which holds the remaining
`n - k * (batches - 1)` (save_file_parser.py lines 34-71). -/
theorem save_file_parser_batches (k : Nat) (e : Entry) (es : List Entry)
    (hk : 1 ≤ k) :
    saveFileParserRun k ((e :: es).map some ++ [none]) =
      some { closedFiles := chunks k ((e :: es).map some),
             openFile := none, blocked := false } ∧
    (chunks k ((e :: es).map some)).length
        = ((e :: es).length + k - 1) / k ∧
    (chunks k ((e :: es).map some)).map List.length
        = List.replicate ((chunks k ((e :: es).map some)).length - 1) k
            ++ [(e :: es).length
                  - k * ((chunks k ((e :: es).map some)).length - 1)] := by
  have hlenmap : ((e :: es).map some).length = (e :: es).length := by simp
  refine ⟨?_, ?_, ?_⟩
  · simp only [List.map_cons, List.cons_append, saveFileParserRun]
    have hrec := saveLoop_entries k hk es e [] [] (by simp; omega)
    simp only [List.length_nil, List.nil_append] at hrec
    rw [hrec]
  · rw [chunks_length k hk ((e :: es).map some).length _ (le_refl _)
      (by simp), hlenmap]
  · rw [chunks_sizes k hk ((e :: es).map some).length _ (le_refl _)
      (by simp), hlenmap]

/-- Witness for C5 at `k = 2` with entries `[1, 2, 3]`. -/
theorem save_file_parser_batches_witness :
    saveFileParserRun 2 ((1 :: [2, 3]).map some ++ [none]) =
      some { closedFiles := chunks 2 ((1 :: [2, 3]).map some),
             openFile := none, blocked := false } ∧
    (chunks 2 ((1 :: [2, 3]).map some)).length
        = ((1 :: [2, 3]).length + 2 - 1) / 2 ∧
    (chunks 2 ((1 :: [2, 3]).map some)).map List.length
        = List.replicate ((chunks 2 ((1 :: [2, 3]).map some)).length - 1) 2
            ++ [(1 :: [2, 3]).length
                  - 2 * ((chunks 2 ((1 :: [2, 3]).map some)).length - 1)] :=
  save_file_parser_batches 2 1 [2, 3] (by decide)

/-- C5 counterexample: with zero entries (the stream is just the sentinel)
and `k = 1` the sink writes the serialized sentinel and closes one batch
file, not the `ceil (0 / 1) = 0` batches the claim predicts for `n = 0`. -/
theorem save_file_parser_zero_entries_counterexample :
    ¬ ((saveFileParserRun 1 [none]).map (fun st => st.closedFiles.length)
        = some ((0 + 1 - 1) / 1)) := by
  decide

/-- C10: when the FIRST item the sink takes is the `None` sentinel, the
end-of-queue check — which only inspects items taken after a write — never
sees it: the sink opens a new file, writes the serialized sentinel
(`"null"`) into it as a data record, and goes on consuming the queue
instead of terminating (save_file_parser.py lines 44-56, 66-71). -/
theorem save_file_parser_initial_sentinel_spec (k : Nat) (e : Entry)
    (rest : List Item) (hk : 2 ≤ k) :
    saveFileParserRun k [none] =
      some { closedFiles := [], openFile := some [none], blocked := true } ∧
    saveFileParserRun k (none :: some e :: rest) =
      some (saveLoop k rest (some e) 1 [none] []) := by
  have hw : writeStep k none 0 [] [] = (1, [none], []) := by
    have h := writeStep_eq k none [] []
    simp only [List.length_nil, List.nil_append] at h
    rw [h, if_neg (by omega)]
  constructor
  · show some (saveLoop k [] none 0 [] []) = _
    rw [saveLoop, hw]
    simp
  · show some (saveLoop k (some e :: rest) none 0 [] []) = _
    rw [saveLoop, hw]

/-- Witness for C10 at the source's batch size 50. -/
theorem save_file_parser_initial_sentinel_spec_witness :
    saveFileParserRun 50 [none] =
      some { closedFiles := [], openFile := some [none], blocked := true } ∧
    saveFileParserRun 50 (none :: some 7 :: []) =
      some (saveLoop 50 [] (some 7) 1 [none] []) :=
  save_file_parser_initial_sentinel_spec 50 7 [] (by decide)
